import Mathlib

/-!
Verification of the record-normalization / enrichment pipeline
(scripts/update_data.py) and the document discovery and ranking engine
(scripts/extract_summaries.py).

Strings are embedded as lists of characters (Python text functions do not
have executable counterparts on Lean's String type); every top-level
definition mirrors the Python function of the same (snake-case) name.
Python regular expressions over fixed-shape patterns become shape tests on
character lists, and the standard-library pieces the scripts call
(str.strip, str.upper, str.split, datetime.date, urljoin) are modelled
from their documented behaviour on the inputs these scripts produce.
-/

/-- Whitespace characters removed by Python str.strip (ASCII range). -/
def isPySpace (c : Char) : Bool :=
  c = ' ' || c = '\t' || c = '\n' || c = '\r' || c = '\x0b' || c = '\x0c'

/-- Model of Python str.strip: drop leading and trailing whitespace. -/
def pyStrip (l : List Char) : List Char :=
  ((l.dropWhile isPySpace).reverse.dropWhile isPySpace).reverse

/-- Model of Python str.upper on ASCII text. -/
def upperL (l : List Char) : List Char := l.map Char.toUpper

/-- Model of Python str.lower on ASCII text. -/
def lowerL (l : List Char) : List Char := l.map Char.toLower

/-- Shape test for the regex fullmatch of four digits, dash, two digits,
dash, two digits, used by normalize_date. -/
def matchDashed (t : List Char) : Bool :=
  match t with
  | [y1, y2, y3, y4, s1, m1, m2, s2, d1, d2] =>
    y1.isDigit && y2.isDigit && y3.isDigit && y4.isDigit && s1 = '-' &&
      m1.isDigit && m2.isDigit && s2 = '-' && d1.isDigit && d2.isDigit
  | _ => false

/-- Shape test for four digits, slash, two digits, slash, two digits. -/
def matchSlashedYMD (t : List Char) : Bool :=
  match t with
  | [y1, y2, y3, y4, s1, m1, m2, s2, d1, d2] =>
    y1.isDigit && y2.isDigit && y3.isDigit && y4.isDigit && s1 = '/' &&
      m1.isDigit && m2.isDigit && s2 = '/' && d1.isDigit && d2.isDigit
  | _ => false

/-- Shape test for two digits, slash, two digits, slash, four digits. -/
def matchMDY (t : List Char) : Bool :=
  match t with
  | [m1, m2, s1, d1, d2, s2, y1, y2, y3, y4] =>
    m1.isDigit && m2.isDigit && s1 = '/' && d1.isDigit && d2.isDigit &&
      s2 = '/' && y1.isDigit && y2.isDigit && y3.isDigit && y4.isDigit
  | _ => false

/-- Shape test for exactly eight digits. -/
def matchEight (t : List Char) : Bool :=
  match t with
  | [y1, y2, y3, y4, m1, m2, d1, d2] =>
    y1.isDigit && y2.isDigit && y3.isDigit && y4.isDigit &&
      m1.isDigit && m2.isDigit && d1.isDigit && d2.isDigit
  | _ => false

/-- Core of normalize_date, acting on the stripped character list: the four
accepted shapes are rewritten to the dashed canonical form, everything else
becomes the empty list. -/
def normDateCore (t : List Char) : List Char :=
  if matchDashed t then t
  else if matchSlashedYMD t then t.map (fun c => if c = '/' then '-' else c)
  else if matchMDY t then
    match t with
    | [m1, m2, _, d1, d2, _, y1, y2, y3, y4] =>
      [y1, y2, y3, y4, '-', m1, m2, '-', d1, d2]
    | _ => []
  else if matchEight t then
    match t with
    | [y1, y2, y3, y4, m1, m2, d1, d2] =>
      [y1, y2, y3, y4, '-', m1, m2, '-', d1, d2]
    | _ => []
  else []

/-- Embedding of normalize_date from scripts/update_data.py: a falsy
(empty) value returns the empty string, otherwise the stripped text is
classified against the four accepted date shapes. -/
def normalizeDate (value : String) : String :=
  if value = "" then ""
  else String.mk (normDateCore (pyStrip value.data))

/-- The call normalize_date(value) when value is None (Python None is
falsy, so the function returns the empty string before str() is applied). -/
def normalizeDateOpt : Option String → String
  | none => ""
  | some s => normalizeDate s

theorem digit_not_space {c : Char} (h : c.isDigit = true) : isPySpace c = false := by
  by_contra hs
  rw [Bool.not_eq_false] at hs
  simp only [isPySpace, Bool.or_eq_true, decide_eq_true_eq] at hs
  rcases hs with (((((rfl | rfl) | rfl) | rfl) | rfl) | rfl) <;> exact absurd h (by decide)

theorem digit_ne_dash {c : Char} (h : c.isDigit = true) : c ≠ '-' := by
  rintro rfl; exact absurd h (by decide)

theorem digit_ne_slash {c : Char} (h : c.isDigit = true) : c ≠ '/' := by
  rintro rfl; exact absurd h (by decide)

theorem pyStrip_ten {a b c d e f g h i j : Char}
    (ha : isPySpace a = false) (hj : isPySpace j = false) :
    pyStrip [a, b, c, d, e, f, g, h, i, j] = [a, b, c, d, e, f, g, h, i, j] := by
  simp [pyStrip, List.dropWhile, ha, hj]

theorem pyStrip_eight {a b c d e f g h : Char}
    (ha : isPySpace a = false) (hh : isPySpace h = false) :
    pyStrip [a, b, c, d, e, f, g, h] = [a, b, c, d, e, f, g, h] := by
  simp [pyStrip, List.dropWhile, ha, hh]

theorem mk_ne_empty {l : List Char} (h : l ≠ []) : String.mk l ≠ "" := by
  intro he
  exact h (congrArg String.data he)

theorem pyStrip_of_matchDashed {t : List Char} (h : matchDashed t = true) :
    pyStrip t = t := by
  unfold matchDashed at h
  split at h
  · next y1 y2 y3 y4 s1 m1 m2 s2 d1 d2 =>
    simp only [Bool.and_eq_true, decide_eq_true_eq] at h
    exact pyStrip_ten (digit_not_space h.1.1.1.1.1.1.1.1.1)
      (digit_not_space h.2)
  · exact absurd h (by simp)

theorem normDateCore_shape (t : List Char) :
    normDateCore t = [] ∨
      (matchDashed (normDateCore t) = true ∧ pyStrip (normDateCore t) = normDateCore t) := by
  unfold normDateCore
  by_cases h1 : matchDashed t = true
  · right
    rw [if_pos h1]
    exact ⟨h1, pyStrip_of_matchDashed h1⟩
  · rw [if_neg h1]
    by_cases h2 : matchSlashedYMD t = true
    · right
      rw [if_pos h2]
      unfold matchSlashedYMD at h2
      split at h2
      · next y1 y2 y3 y4 s1 m1 m2 s2 d1 d2 =>
        simp only [Bool.and_eq_true, decide_eq_true_eq] at h2
        obtain ⟨⟨⟨⟨⟨⟨⟨⟨⟨hy1, hy2⟩, hy3⟩, hy4⟩, hs1⟩, hm1⟩, hm2⟩, hs2⟩, hd1⟩, hd2⟩ := h2
        subst hs1; subst hs2
        simp only [List.map_cons, List.map_nil, if_pos rfl,
          if_neg (digit_ne_slash hy1), if_neg (digit_ne_slash hy2),
          if_neg (digit_ne_slash hy3), if_neg (digit_ne_slash hy4),
          if_neg (digit_ne_slash hm1), if_neg (digit_ne_slash hm2),
          if_neg (digit_ne_slash hd1), if_neg (digit_ne_slash hd2)]
        constructor
        · simp [matchDashed, hy1, hy2, hy3, hy4, hm1, hm2, hd1, hd2]
        · exact pyStrip_ten (digit_not_space hy1) (digit_not_space hd2)
      · exact absurd h2 (by simp)
    · rw [if_neg h2]
      by_cases h3 : matchMDY t = true
      · right
        rw [if_pos h3]
        unfold matchMDY at h3
        split at h3
        · next m1 m2 s1 d1 d2 s2 y1 y2 y3 y4 =>
          simp only [Bool.and_eq_true, decide_eq_true_eq] at h3
          obtain ⟨⟨⟨⟨⟨⟨⟨⟨⟨hm1, hm2⟩, hs1⟩, hd1⟩, hd2⟩, hs2⟩, hy1⟩, hy2⟩, hy3⟩, hy4⟩ := h3
          constructor
          · simp [matchDashed, hy1, hy2, hy3, hy4, hm1, hm2, hd1, hd2]
          · exact pyStrip_ten (digit_not_space hy1) (digit_not_space hd2)
        · exact absurd h3 (by simp)
      · rw [if_neg h3]
        by_cases h4 : matchEight t = true
        · right
          rw [if_pos h4]
          unfold matchEight at h4
          split at h4
          · next y1 y2 y3 y4 m1 m2 d1 d2 =>
            simp only [Bool.and_eq_true, decide_eq_true_eq] at h4
            obtain ⟨⟨⟨⟨⟨⟨⟨hy1, hy2⟩, hy3⟩, hy4⟩, hm1⟩, hm2⟩, hd1⟩, hd2⟩ := h4
            constructor
            · simp [matchDashed, hy1, hy2, hy3, hy4, hm1, hm2, hd1, hd2]
            · exact pyStrip_ten (digit_not_space hy1) (digit_not_space hd2)
          · exact absurd h4 (by simp)
        · left
          rw [if_neg h4]

theorem matchDashed_ne_nil {t : List Char} (h : matchDashed t = true) : t ≠ [] := by
  rintro rfl; exact absurd h (by decide)

theorem normalizeDate_eq {s : String} (hs : s ≠ "") :
    normalizeDate s = String.mk (normDateCore (pyStrip s.data)) := by
  rw [normalizeDate, if_neg hs]

theorem normDateCore_of_matchDashed {t : List Char} (h : matchDashed t = true) :
    normDateCore t = t := by
  unfold normDateCore
  rw [if_pos h]

/-- CLAIM C6: normalize_date never raises, maps each of the four accepted
shapes (dashed, year-first slashed, month-first slashed, bare eight digits)
to the canonical dashed form, maps everything else — including None and
garbage — to the empty string, and is idempotent. -/
theorem normalize_date_spec :
    normalizeDateOpt none = "" ∧
    (∀ y1 y2 y3 y4 m1 m2 d1 d2 : Char,
      ([y1, y2, y3, y4, m1, m2, d1, d2].all Char.isDigit) = true →
        normalizeDate (String.mk [y1, y2, y3, y4, '-', m1, m2, '-', d1, d2]) =
          String.mk [y1, y2, y3, y4, '-', m1, m2, '-', d1, d2] ∧
        normalizeDate (String.mk [y1, y2, y3, y4, '/', m1, m2, '/', d1, d2]) =
          String.mk [y1, y2, y3, y4, '-', m1, m2, '-', d1, d2] ∧
        normalizeDate (String.mk [m1, m2, '/', d1, d2, '/', y1, y2, y3, y4]) =
          String.mk [y1, y2, y3, y4, '-', m1, m2, '-', d1, d2] ∧
        normalizeDate (String.mk [y1, y2, y3, y4, m1, m2, d1, d2]) =
          String.mk [y1, y2, y3, y4, '-', m1, m2, '-', d1, d2]) ∧
    (∀ s : String,
      ¬ (matchDashed (pyStrip s.data) = true ∨ matchSlashedYMD (pyStrip s.data) = true ∨
          matchMDY (pyStrip s.data) = true ∨ matchEight (pyStrip s.data) = true) →
        normalizeDate s = "") ∧
    (∀ s : String, normalizeDate (normalizeDate s) = normalizeDate s) := by
  refine ⟨rfl, ?_, ?_, ?_⟩
  · intro y1 y2 y3 y4 m1 m2 d1 d2 hall
    simp only [List.all_cons, List.all_nil, Bool.and_eq_true, Bool.and_true] at hall
    obtain ⟨hy1, hy2, hy3, hy4, hm1, hm2, hd1, hd2⟩ := hall
    have hmk10 : ∀ a b c d e f g h i j : Char,
        (String.mk [a, b, c, d, e, f, g, h, i, j] : String) ≠ "" := by
      intro a b c d e f g h i j
      exact mk_ne_empty (by simp)
    have hmk8 : ∀ a b c d e f g h : Char,
        (String.mk [a, b, c, d, e, f, g, h] : String) ≠ "" := by
      intro a b c d e f g h
      exact mk_ne_empty (by simp)
    refine ⟨?_, ?_, ?_, ?_⟩
    · rw [normalizeDate, if_neg (hmk10 _ _ _ _ _ _ _ _ _ _)]
      show String.mk (normDateCore (pyStrip [y1, y2, y3, y4, '-', m1, m2, '-', d1, d2])) = _
      rw [pyStrip_ten (digit_not_space hy1) (digit_not_space hd2)]
      rw [normDateCore, if_pos (by simp [matchDashed, hy1, hy2, hy3, hy4, hm1, hm2, hd1, hd2])]
    · rw [normalizeDate, if_neg (hmk10 _ _ _ _ _ _ _ _ _ _)]
      show String.mk (normDateCore (pyStrip [y1, y2, y3, y4, '/', m1, m2, '/', d1, d2])) = _
      rw [pyStrip_ten (digit_not_space hy1) (digit_not_space hd2)]
      rw [normDateCore]
      rw [if_neg (by simp [matchDashed])]
      rw [if_pos (by simp [matchSlashedYMD, hy1, hy2, hy3, hy4, hm1, hm2, hd1, hd2])]
      simp only [List.map_cons, List.map_nil, if_pos rfl, if_true,
        if_neg (digit_ne_slash hy1), if_neg (digit_ne_slash hy2),
        if_neg (digit_ne_slash hy3), if_neg (digit_ne_slash hy4),
        if_neg (digit_ne_slash hm1), if_neg (digit_ne_slash hm2),
        if_neg (digit_ne_slash hd1), if_neg (digit_ne_slash hd2)]
    · rw [normalizeDate, if_neg (hmk10 _ _ _ _ _ _ _ _ _ _)]
      show String.mk (normDateCore (pyStrip [m1, m2, '/', d1, d2, '/', y1, y2, y3, y4])) = _
      rw [pyStrip_ten (digit_not_space hm1) (digit_not_space hy4)]
      rw [normDateCore]
      rw [if_neg (by simp [matchDashed, digit_ne_dash hd2])]
      rw [if_neg (by simp [matchSlashedYMD, digit_ne_slash hd2])]
      rw [if_pos (by simp [matchMDY, hy1, hy2, hy3, hy4, hm1, hm2, hd1, hd2])]
    · rw [normalizeDate, if_neg (hmk8 _ _ _ _ _ _ _ _)]
      show String.mk (normDateCore (pyStrip [y1, y2, y3, y4, m1, m2, d1, d2])) = _
      rw [pyStrip_eight (digit_not_space hy1) (digit_not_space hd2)]
      rw [normDateCore]
      rw [if_neg (by simp [matchDashed])]
      rw [if_neg (by simp [matchSlashedYMD])]
      rw [if_neg (by simp [matchMDY])]
      rw [if_pos (by simp [matchEight, hy1, hy2, hy3, hy4, hm1, hm2, hd1, hd2])]
  · intro s hnone
    push_neg at hnone
    obtain ⟨hn1, hn2, hn3, hn4⟩ := hnone
    by_cases hs : s = ""
    · simp [normalizeDate, hs]
    · rw [normalizeDate_eq hs]
      unfold normDateCore
      rw [if_neg hn1, if_neg hn2, if_neg hn3, if_neg hn4]
  · intro s
    by_cases hs : s = ""
    · simp [normalizeDate, hs]
    · rw [normalizeDate_eq hs]
      rcases normDateCore_shape (pyStrip s.data) with h0 | ⟨hm, hstrip⟩
      · rw [h0]
        rfl
      · rw [normalizeDate_eq (mk_ne_empty (matchDashed_ne_nil hm))]
        show String.mk (normDateCore (pyStrip (normDateCore (pyStrip s.data)))) = _
        rw [hstrip, normDateCore_of_matchDashed hm]

/-- Witness for normalize_date_spec at concrete inputs. -/
theorem normalize_date_spec_witness :
    normalizeDate (String.mk ['2', '0', '2', '1', '/', '0', '5', '/', '0', '6']) =
      String.mk ['2', '0', '2', '1', '-', '0', '5', '-', '0', '6'] ∧
    normalizeDate "junk" = "" :=
  ⟨(normalize_date_spec.2.1 '2' '0' '2' '1' '0' '5' '0' '6' (by decide)).2.1,
   normalize_date_spec.2.2.1 "junk" (by decide)⟩

/-- Model of Python str.split on the single-character separator slash:
every slash starts a new (possibly empty) segment. -/
def splitSlash : List Char → List (List Char)
  | [] => [[]]
  | c :: rest =>
    match splitSlash rest with
    | [] => [[]]
    | g :: gs => if c = '/' then [] :: g :: gs else (c :: g) :: gs

/-- Model of Python str.isdigit on ASCII text: nonempty and all digits. -/
def pyIsDigit (l : List Char) : Bool :=
  !l.isEmpty && l.all Char.isDigit

/-- Model of Python int() on a digit string. -/
def digitsToNat (l : List Char) : Nat :=
  l.foldl (fun acc c => acc * 10 + (c.toNat - '0'.toNat)) 0

/-- Embedding of the year derivation of parse_xml_rows
(scripts/update_data.py lines 207-216 plus the later year-or-0 fallback):
if the cleaned decision date splits on slash into exactly three parts and
the third is a digit string, year is its integer value, else the row gets
year 0 (int 0 also collapses to 0 through the or-fallback). -/
def deriveYear (decision_date : String) : Nat :=
  if decision_date = "" then 0
  else
    let parts := splitSlash decision_date.data
    if parts.length = 3 && pyIsDigit (parts.getD 2 []) then
      if digitsToNat (parts.getD 2 []) = 0 then 0 else digitsToNat (parts.getD 2 [])
    else 0

/-- Counterexample to CLAIM C3: the code accepts a digit string of any
length as the year, not only four-digit years; on the cleaned decision
date 01/02/999 the third component has three digits, so the claim says
year 0, but the code produces 999. -/
theorem derive_year_four_digit_cex :
    deriveYear "01/02/999" = 999 ∧ (999 : Nat) ≠ 0 := by
  constructor
  · decide
  · decide

/-- CLAIM C3 (amended): the derived year equals the integer value of the
third slash-separated component of the cleaned decision-date string
whenever the string splits into exactly three components and that third
component is a nonempty digit string (of any length); in every other case,
and when that integer is zero, the year is 0. -/
theorem derive_year_amended (s : String) :
    (s ≠ "" → (splitSlash s.data).length = 3 →
      pyIsDigit ((splitSlash s.data).getD 2 []) = true →
      digitsToNat ((splitSlash s.data).getD 2 []) ≠ 0 →
      deriveYear s = digitsToNat ((splitSlash s.data).getD 2 [])) ∧
    (s ≠ "" → (splitSlash s.data).length = 3 →
      pyIsDigit ((splitSlash s.data).getD 2 []) = true →
      digitsToNat ((splitSlash s.data).getD 2 []) = 0 →
      deriveYear s = 0) ∧
    (¬ ((splitSlash s.data).length = 3 ∧ pyIsDigit ((splitSlash s.data).getD 2 []) = true) →
      deriveYear s = 0) := by
  refine ⟨?_, ?_, ?_⟩
  · intro hne hlen hdig hval
    have hc : (decide ((splitSlash s.data).length = 3) &&
        pyIsDigit ((splitSlash s.data).getD 2 [])) = true := by
      simp only [hlen, hdig]; decide
    simp only [deriveYear]
    rw [if_neg hne, if_pos hc, if_neg hval]
  · intro hne hlen hdig hval
    have hc : (decide ((splitSlash s.data).length = 3) &&
        pyIsDigit ((splitSlash s.data).getD 2 [])) = true := by
      simp only [hlen, hdig]; decide
    simp only [deriveYear]
    rw [if_neg hne, if_pos hc, if_pos hval]
  · intro hcond
    by_cases hne : s = ""
    · simp [deriveYear, hne]
    · have hc : ¬ ((decide ((splitSlash s.data).length = 3) &&
          pyIsDigit ((splitSlash s.data).getD 2 [])) = true) := by
        simp only [Bool.and_eq_true, decide_eq_true_eq]
        exact fun hc2 => hcond ⟨hc2.1, hc2.2⟩
      simp only [deriveYear]
      rw [if_neg hne, if_neg hc]

/-- Witness for derive_year_amended at concrete inputs. -/
theorem derive_year_amended_witness :
    deriveYear "11/08/2023" = 2023 ∧ deriveYear "2023-11-08" = 0 :=
  ⟨(derive_year_amended "11/08/2023").1 (by decide) (by decide) (by decide) (by decide),
   (derive_year_amended "2023-11-08").2.2 (by decide)⟩

/-- Gregorian leap-year rule, as implemented by Python datetime. -/
def isLeap (y : Nat) : Bool :=
  y % 4 = 0 && (y % 100 ≠ 0 || y % 400 = 0)

/-- Length of a month in the proleptic Gregorian calendar. -/
def daysInMonth (y m : Nat) : Nat :=
  if m = 2 then (if isLeap y then 29 else 28)
  else if m = 4 ∨ m = 6 ∨ m = 9 ∨ m = 11 then 30
  else 31

/-- Days in the months 1..m of year y. -/
def daysBeforeMonth (y : Nat) : Nat → Nat
  | 0 => 0
  | m + 1 => daysBeforeMonth y m + daysInMonth y (m + 1)

/-- Length of year y (366 in leap years, 365 otherwise). -/
def daysInYear (y : Nat) : Nat := daysBeforeMonth y 12

/-- Days in the years 1..y-1, so that dates convert to absolute day
numbers exactly as datetime.date.toordinal does up to a constant shift. -/
def daysBeforeYear : Nat → Nat
  | 0 => 0
  | 1 => 0
  | y + 2 => daysBeforeYear (y + 1) + daysInYear (y + 1)

/-- A calendar date as held by a Python datetime.date object. -/
structure PyDate where
  year : Nat
  month : Nat
  day : Nat
deriving DecidableEq, Repr

/-- Absolute day number of a date; differences of these model
(end - start).days on datetime.date values. -/
def toOrd (d : PyDate) : Nat :=
  daysBeforeYear d.year + daysBeforeMonth d.year (d.month - 1) + d.day

/-- Model of Python date comparison, which is lexicographic on
(year, month, day). -/
def dateLtB (a b : PyDate) : Bool :=
  a.year < b.year ||
    (a.year = b.year &&
      (a.month < b.month || (a.month = b.month && a.day < b.day)))

/-- The invariant datetime.date enforces on construction. -/
def validDate (d : PyDate) : Prop :=
  1 ≤ d.year ∧ 1 ≤ d.month ∧ d.month ≤ 12 ∧ 1 ≤ d.day ∧
    d.day ≤ daysInMonth d.year d.month

/-- Numeric value of an ASCII digit. -/
def charVal (c : Char) : Nat := c.toNat - '0'.toNat

/-- The validation performed by the datetime.date constructor: a date
outside the calendar raises, modelled as none. -/
def mkValidDate (y m d : Nat) : Option PyDate :=
  if 1 ≤ y ∧ 1 ≤ m ∧ m ≤ 12 ∧ 1 ≤ d ∧ d ≤ daysInMonth y m then
    some ⟨y, m, d⟩
  else none

/-- Model of datetime.date.fromisoformat on the canonical dashed shape:
parse and validate, anything else raises (returns none). -/
def fromIso (s : String) : Option PyDate :=
  match s.data with
  | [y1, y2, y3, y4, s1, m1, m2, s2, d1, d2] =>
    if y1.isDigit && y2.isDigit && y3.isDigit && y4.isDigit && s1 = '-' &&
        m1.isDigit && m2.isDigit && s2 = '-' && d1.isDigit && d2.isDigit then
      mkValidDate (((charVal y1 * 10 + charVal y2) * 10 + charVal y3) * 10 + charVal y4)
        (charVal m1 * 10 + charVal m2) (charVal d1 * 10 + charVal d2)
    else none
  | _ => none

/-- Embedding of days_between from scripts/update_data.py: empty or
unparsable inputs and end-before-start pairs give None, otherwise the
signed day difference. -/
def daysBetween (startIso endIso : String) : Option Int :=
  if startIso = "" ∨ endIso = "" then none
  else
    match fromIso startIso, fromIso endIso with
    | some s, some e =>
      if dateLtB e s then none else some ((toOrd e : Int) - (toOrd s : Int))
    | _, _ => none

theorem daysBeforeMonth_le (y : Nat) {a b : Nat} (h : a ≤ b) :
    daysBeforeMonth y a ≤ daysBeforeMonth y b := by
  induction b with
  | zero =>
    have : a = 0 := Nat.le_zero.mp h
    subst this; exact le_refl _
  | succ n ih =>
    rcases Nat.lt_or_ge a (n + 1) with hlt | hge
    · exact le_trans (ih (by omega)) (Nat.le_add_right _ _)
    · have : a = n + 1 := by omega
      subst this; exact le_refl _

theorem daysBeforeYear_le {a b : Nat} (h : a ≤ b) :
    daysBeforeYear a ≤ daysBeforeYear b := by
  induction b with
  | zero =>
    have : a = 0 := Nat.le_zero.mp h
    subst this; exact le_refl _
  | succ n ih =>
    rcases Nat.lt_or_ge a (n + 1) with hlt | hge
    · refine le_trans (ih (by omega)) ?_
      cases n with
      | zero => exact le_refl _
      | succ k => exact Nat.le_add_right _ _
    · have : a = n + 1 := by omega
      subst this; exact le_refl _

theorem daysBeforeYear_succ {y : Nat} (h : 1 ≤ y) :
    daysBeforeYear (y + 1) = daysBeforeYear y + daysInYear y := by
  cases y with
  | zero => omega
  | succ k => rfl

theorem inYear_bound {y m d : Nat} (hm1 : 1 ≤ m) (hm2 : m ≤ 12)
    (hd : d ≤ daysInMonth y m) :
    daysBeforeMonth y (m - 1) + d ≤ daysInYear y := by
  have hstep : daysBeforeMonth y (m - 1) + daysInMonth y m = daysBeforeMonth y m := by
    cases m with
    | zero => omega
    | succ k => rfl
  calc daysBeforeMonth y (m - 1) + d
      ≤ daysBeforeMonth y (m - 1) + daysInMonth y m := by omega
    _ = daysBeforeMonth y m := hstep
    _ ≤ daysBeforeMonth y 12 := daysBeforeMonth_le y hm2
    _ = daysInYear y := rfl

theorem dateLtB_iff {a b : PyDate} : dateLtB a b = true ↔
    (a.year < b.year ∨ (a.year = b.year ∧
      (a.month < b.month ∨ (a.month = b.month ∧ a.day < b.day)))) := by
  unfold dateLtB
  simp [Bool.or_eq_true, Bool.and_eq_true, decide_eq_true_eq]

theorem daysBeforeMonth_step {y m : Nat} (hm : 1 ≤ m) :
    daysBeforeMonth y (m - 1) + daysInMonth y m = daysBeforeMonth y m := by
  cases m with
  | zero => omega
  | succ k => rfl

theorem toOrd_lt_of_dateLtB {a b : PyDate} (ha : validDate a) (hb : validDate b)
    (h : dateLtB a b = true) : toOrd a < toOrd b := by
  obtain ⟨hay, ham1, ham2, had1, had2⟩ := ha
  obtain ⟨hby, hbm1, hbm2, hbd1, hbd2⟩ := hb
  rw [dateLtB_iff] at h
  unfold toOrd
  rcases h with hy | ⟨hy, hm | ⟨hm, hd⟩⟩
  · have h1 : daysBeforeMonth a.year (a.month - 1) + a.day ≤ daysInYear a.year :=
      inYear_bound ham1 ham2 had2
    have h2 : daysBeforeYear (a.year + 1) = daysBeforeYear a.year + daysInYear a.year :=
      daysBeforeYear_succ hay
    have h3 : daysBeforeYear (a.year + 1) ≤ daysBeforeYear b.year :=
      daysBeforeYear_le (by omega)
    omega
  · rw [← hy]
    have hstep := @daysBeforeMonth_step a.year a.month ham1
    have hmono : daysBeforeMonth a.year a.month ≤ daysBeforeMonth a.year (b.month - 1) :=
      daysBeforeMonth_le a.year (by omega)
    omega
  · rw [← hy, ← hm]
    omega

theorem toOrd_le_of_not_dateLtB {a b : PyDate} (ha : validDate a) (hb : validDate b)
    (h : dateLtB b a = false) : toOrd a ≤ toOrd b := by
  rcases eq_or_ne a b with rfl | hne
  · exact le_refl _
  · refine le_of_lt (toOrd_lt_of_dateLtB ha hb ?_)
    rw [dateLtB_iff]
    have h1 : ¬ (b.year < a.year ∨ (b.year = a.year ∧
        (b.month < a.month ∨ (b.month = a.month ∧ b.day < a.day)))) := by
      rw [← dateLtB_iff, h]; simp
    have h2 : ¬ (a.year = b.year ∧ a.month = b.month ∧ a.day = b.day) := by
      intro hc
      apply hne
      cases a; cases b
      simp only [PyDate.mk.injEq]
      exact ⟨hc.1, hc.2.1, hc.2.2⟩
    omega

theorem mkValidDate_valid {y m d : Nat} {p : PyDate} (h : mkValidDate y m d = some p) :
    validDate p := by
  unfold mkValidDate at h
  split at h
  · next hc =>
    cases h
    exact hc
  · exact absurd h (by simp)

theorem fromIso_valid {s : String} {d : PyDate} (h : fromIso s = some d) :
    validDate d := by
  unfold fromIso at h
  split at h
  · split at h
    · exact mkValidDate_valid h
    · exact absurd h (by simp)
  · exact absurd h (by simp)

theorem fromIso_ne_empty {s : String} {d : PyDate} (h : fromIso s = some d) :
    s ≠ "" := by
  rintro rfl
  have hnone : fromIso "" = none := rfl
  rw [hnone] at h
  exact absurd h (by simp)

/-- CLAIM C5: days_between returns None when either input is empty or
unparsable or when the end date precedes the start date; on parsable
dates in order it returns the exact day difference, which is never
negative; and the documented example pair yields 51 days. -/
theorem days_between_spec :
    (∀ a b : String,
      ((a = "" ∨ b = "" ∨ fromIso a = none ∨ fromIso b = none) →
        daysBetween a b = none) ∧
      (∀ da db, fromIso a = some da → fromIso b = some db →
        dateLtB db da = true → daysBetween a b = none) ∧
      (∀ da db, fromIso a = some da → fromIso b = some db →
        dateLtB db da = false →
        daysBetween a b = some ((toOrd db : Int) - (toOrd da : Int)) ∧
          (0 : Int) ≤ (toOrd db : Int) - (toOrd da : Int)) ∧
      (∀ v : Int, daysBetween a b = some v → 0 ≤ v)) ∧
    daysBetween "2020-01-10" "2020-03-01" = some 51 := by
  constructor
  · intro a b
    refine ⟨?_, ?_, ?_, ?_⟩
    · intro hcase
      by_cases he : a = "" ∨ b = ""
      · rw [daysBetween, if_pos he]
      · rw [daysBetween, if_neg he]
        push_neg at he
        rcases hcase with h | h | h | h
        · exact absurd h he.1
        · exact absurd h he.2
        · rw [h]
        · rw [h]
          cases fromIso a <;> rfl
    · intro da db h1 h2 hlt
      rw [daysBetween, if_neg (by
        rintro (h | h)
        exacts [fromIso_ne_empty h1 h, fromIso_ne_empty h2 h])]
      rw [h1, h2]
      show (if dateLtB db da = true then none else _) = none
      rw [if_pos hlt]
    · intro da db h1 h2 hlt
      constructor
      · rw [daysBetween, if_neg (by
          rintro (h | h)
          exacts [fromIso_ne_empty h1 h, fromIso_ne_empty h2 h])]
        rw [h1, h2]
        show (if dateLtB db da = true then none else _) = _
        rw [if_neg (by simp [hlt])]
      · have hle := toOrd_le_of_not_dateLtB (fromIso_valid h1) (fromIso_valid h2) hlt
        omega
    · intro v hv
      by_cases he : a = "" ∨ b = ""
      · rw [daysBetween, if_pos he] at hv
        exact absurd hv (by simp)
      · rw [daysBetween, if_neg he] at hv
        rcases ha : fromIso a with _ | da
        · rw [ha] at hv
          exact absurd hv (by simp)
        · rcases hb : fromIso b with _ | db
          · rw [ha, hb] at hv
            exact absurd hv (by simp)
          · rw [ha, hb] at hv
            change (if dateLtB db da = true then none
              else some ((toOrd db : Int) - (toOrd da : Int))) = some v at hv
            by_cases hlt : dateLtB db da = true
            · rw [if_pos hlt] at hv
              exact absurd hv (by simp)
            · rw [if_neg hlt] at hv
              have hlt2 : dateLtB db da = false := by
                revert hlt; cases dateLtB db da <;> simp
              have hle := toOrd_le_of_not_dateLtB (fromIso_valid ha) (fromIso_valid hb) hlt2
              cases hv
              omega
  · have hs : fromIso "2020-01-10" = some ⟨2020, 1, 10⟩ := by decide
    have he : fromIso "2020-03-01" = some ⟨2020, 3, 1⟩ := by decide
    rw [daysBetween, if_neg (by decide)]
    rw [hs, he]
    show (if dateLtB ⟨2020, 3, 1⟩ ⟨2020, 1, 10⟩ = true then none
      else some ((toOrd ⟨2020, 3, 1⟩ : Int) - (toOrd ⟨2020, 1, 10⟩ : Int))) = some 51
    have hval : (toOrd ⟨2020, 3, 1⟩ : Int) - (toOrd ⟨2020, 1, 10⟩ : Int) = 51 := by
      unfold toOrd
      dsimp only
      have h1 : daysBeforeMonth 2020 (3 - 1) = 60 := by decide
      have h2 : daysBeforeMonth 2020 (1 - 1) = 0 := by decide
      rw [h1, h2]
      push_cast
      omega
    rw [if_neg (by decide), hval]

/-- Witness for days_between_spec at concrete inputs: swapped dates are
suppressed and an empty start date is suppressed. -/
theorem days_between_spec_witness :
    daysBetween "2020-03-01" "2020-01-10" = none ∧
    daysBetween "" "2020-01-10" = none :=
  ⟨(days_between_spec.1 "2020-03-01" "2020-01-10").2.1 ⟨2020, 3, 1⟩ ⟨2020, 1, 10⟩
      (by decide) (by decide) (by decide),
   (days_between_spec.1 "" "2020-01-10").1 (Or.inl rfl)⟩

/-- Result or cache-entry dictionary of fetch_openfda; the source key is
present exactly on dictionaries written to the cache (cache entries always
carry three keys, hence are truthy in Python). -/
structure OFDAEntry where
  received_date : String
  decision_date_openfda : String
  source : Option String
deriving DecidableEq, Repr

/-- The empty result dictionary returned on the short-circuit paths. -/
def emptyOFDA : OFDAEntry := ⟨"", "", none⟩

/-- The openFDA cache: an insertion-ordered dictionary from uppercased
submission ids to entries, looked up at the most recent insertion. -/
abbrev OFDACache := List (String × OFDAEntry)

/-- Dictionary lookup, cache.get(submission_id). -/
def cacheFind (k : String) : OFDACache → Option OFDAEntry
  | [] => none
  | (k2, v) :: rest => if k2 = k then some v else cacheFind k rest

/-- One record of the decoded openFDA response; absent keys are none, as
record.get returns None. -/
structure OFDARecord where
  received_date : Option String
  date_received : Option String
  receive_date : Option String
  decision_date : Option String
deriving DecidableEq, Repr

/-- One network interaction of the retry loop: either an exception
(urllib URLError or json JSONDecodeError) or a decoded results list. -/
inductive NetResponse where
  | failure
  | payload (results : List OFDARecord)

/-- Python falsy-chaining x or y or ... or the empty string over values
that may be absent. -/
def firstTruthy : List (Option String) → String
  | [] => ""
  | none :: rest => firstTruthy rest
  | some s :: rest => if s = "" then firstTruthy rest else s

/-- Observable outcome of a fetch_openfda call: the returned dictionary,
the final cache, the number of network requests made and the number of
sleep calls performed. -/
structure FetchOut where
  result : OFDAEntry
  cache : OFDACache
  calls : Nat
  sleeps : Nat
deriving DecidableEq, Repr

/-- The retry loop of fetch_openfda (scripts/update_data.py lines
158-192): net gives the outcome of the download-and-decode at each attempt
index, and the second argument counts the attempts remaining in
range(retries).  A failure on the last attempt breaks out to the final
empty return; an earlier failure sleeps the backoff and retries; an empty
results list caches and returns a no-data entry before any sleep; a
nonempty results list caches and returns the extracted entry after the
throttle sleep. -/
def fetchLoop (queryField sid : String) (net : Nat → NetResponse) (cache : OFDACache) :
    Nat → Nat → FetchOut
  | _, 0 => ⟨emptyOFDA, cache, 0, 0⟩
  | attempt, r + 1 =>
    match net attempt with
    | .failure =>
      if r = 0 then ⟨emptyOFDA, cache, 1, 0⟩
      else
        let out := fetchLoop queryField sid net cache (attempt + 1) r
        ⟨out.result, out.cache, out.calls + 1, out.sleeps + 1⟩
    | .payload [] =>
      ⟨⟨"", "", some queryField⟩, (sid, ⟨"", "", some queryField⟩) :: cache, 1, 0⟩
    | .payload (record :: _) =>
      let received := normalizeDate (firstTruthy
        [record.received_date, record.date_received, record.receive_date])
      let decision := normalizeDate (firstTruthy [record.decision_date])
      ⟨⟨received, decision, some queryField⟩,
        (sid, ⟨received, decision, some queryField⟩) :: cache, 1, 1⟩

/-- Embedding of fetch_openfda (scripts/update_data.py lines 138-192): an
empty id short-circuits; a cache hit on the uppercased id returns the
cached dictionary with no network access and no sleep; a K prefix selects
the 510k endpoint querying k_number, a P prefix the pma endpoint querying
pma_number; any other prefix returns the empty result without caching;
otherwise the retry loop runs from attempt 0. -/
def fetchOpenfda (submission_id : String) (cache : OFDACache) (net : Nat → NetResponse)
    (retries : Nat) : FetchOut :=
  if submission_id = "" then ⟨emptyOFDA, cache, 0, 0⟩
  else
    match cacheFind (String.mk (upperL submission_id.data)) cache with
    | some entry => ⟨entry, cache, 0, 0⟩
    | none =>
      if ['K'].isPrefixOf (upperL submission_id.data) then
        fetchLoop "k_number" (String.mk (upperL submission_id.data)) net cache 0 retries
      else if ['P'].isPrefixOf (upperL submission_id.data) then
        fetchLoop "pma_number" (String.mk (upperL submission_id.data)) net cache 0 retries
      else ⟨emptyOFDA, cache, 0, 0⟩

theorem fetchLoop_calls {qf sid : String} {net : Nat → NetResponse} {cache : OFDACache}
    {attempt r : Nat} (h : 1 ≤ r) :
    1 ≤ (fetchLoop qf sid net cache attempt r).calls := by
  cases r with
  | zero => omega
  | succ k =>
    cases hnet : net attempt with
    | failure =>
      by_cases hk : k = 0 <;> simp [fetchLoop, hnet, hk]
    | payload results =>
      cases results <;> simp [fetchLoop, hnet]

theorem fetchLoop_source (qf sid : String) (net : Nat → NetResponse) (cache : OFDACache) :
    ∀ r attempt, (fetchLoop qf sid net cache attempt r).result.source = some qf ∨
      (fetchLoop qf sid net cache attempt r).result = emptyOFDA := by
  intro r
  induction r with
  | zero =>
    intro attempt
    right; rfl
  | succ k ih =>
    intro attempt
    cases hnet : net attempt with
    | failure =>
      by_cases hk : k = 0
      · right; simp [fetchLoop, hnet, hk]
      · rcases ih (attempt + 1) with h | h
        · left; simp [fetchLoop, hnet, hk, h]
        · right; simp [fetchLoop, hnet, hk, h]
    | payload results =>
      cases results with
      | nil => left; simp [fetchLoop, hnet]
      | cons record rest => left; simp [fetchLoop, hnet]

theorem fetchLoop_all_failures (qf sid : String) (net : Nat → NetResponse) (cache : OFDACache) :
    ∀ r attempt, (∀ i, attempt ≤ i → i < attempt + r → net i = .failure) →
      (fetchLoop qf sid net cache attempt r).result = emptyOFDA ∧
      (fetchLoop qf sid net cache attempt r).cache = cache := by
  intro r
  induction r with
  | zero =>
    intro attempt h
    exact ⟨rfl, rfl⟩
  | succ k ih =>
    intro attempt h
    have hnet : net attempt = .failure := h attempt (le_refl _) (by omega)
    by_cases hk : k = 0
    · subst hk
      constructor <;> simp [fetchLoop, hnet]
    · have hrec := ih (attempt + 1) (fun i h1 h2 => h i (by omega) (by omega))
      constructor <;> simp [fetchLoop, hnet, hk, hrec.1, hrec.2]

theorem fetchOpenfda_uncached {sid : String} {cache : OFDACache} {net : Nat → NetResponse}
    {retries : Nat} (hne : sid ≠ "")
    (hmiss : cacheFind (String.mk (upperL sid.data)) cache = none) :
    fetchOpenfda sid cache net retries =
      if ['K'].isPrefixOf (upperL sid.data) then
        fetchLoop "k_number" (String.mk (upperL sid.data)) net cache 0 retries
      else if ['P'].isPrefixOf (upperL sid.data) then
        fetchLoop "pma_number" (String.mk (upperL sid.data)) net cache 0 retries
      else ⟨emptyOFDA, cache, 0, 0⟩ := by
  rw [fetchOpenfda, if_neg hne, hmiss]

theorem fetchOpenfda_cached {sid : String} {cache : OFDACache} {net : Nat → NetResponse}
    {retries : Nat} {e : OFDAEntry} (hne : sid ≠ "")
    (hhit : cacheFind (String.mk (upperL sid.data)) cache = some e) :
    fetchOpenfda sid cache net retries = ⟨e, cache, 0, 0⟩ := by
  rw [fetchOpenfda, if_neg hne, hhit]

theorem p_not_k {l : List Char} (hP : ['P'].isPrefixOf l = true) :
    ['K'].isPrefixOf l = false := by
  rw [List.isPrefixOf_iff_prefix] at hP
  obtain ⟨t, rfl⟩ := hP
  rfl

theorem den_not_kp {l : List Char} (h : ['D', 'E', 'N'].isPrefixOf l = true) :
    ['K'].isPrefixOf l = false ∧ ['P'].isPrefixOf l = false := by
  rw [List.isPrefixOf_iff_prefix] at h
  obtain ⟨t, rfl⟩ := h
  exact ⟨rfl, rfl⟩

/-- Counterexample to CLAIM C4: a DEN-prefixed identifier does not resolve
to an external-lookup endpoint; even with the cache empty and the network
ready to answer every attempt, fetch_openfda makes zero requests and
returns the empty result without caching, exactly the unrecognized-prefix
path the claim excludes. -/
theorem fetch_openfda_den_cex :
    fetchOpenfda "DEN123456" []
        (fun _ => .payload [⟨some "2020-01-01", none, none, some "2020-02-02"⟩]) 3 =
      ⟨emptyOFDA, [], 0, 0⟩ := by
  rfl

/-- CLAIM C4 (amended): only the K and P identifier families resolve to an
external-lookup endpoint.  For a non-empty uncached identifier, a K prefix
selects the 510k endpoint (query field k_number) and performs at least one
request, a P prefix selects the pma endpoint (query field pma_number) and
performs at least one request, while a DEN prefix takes the
unrecognized-prefix path: empty result, no request, cache untouched. -/
theorem fetch_openfda_families_amended (sid : String) (cache : OFDACache)
    (net : Nat → NetResponse) (retries : Nat) (hne : sid ≠ "")
    (hmiss : cacheFind (String.mk (upperL sid.data)) cache = none) :
    (['K'].isPrefixOf (upperL sid.data) = true → 1 ≤ retries →
      1 ≤ (fetchOpenfda sid cache net retries).calls ∧
      ((fetchOpenfda sid cache net retries).result.source = some "k_number" ∨
        (fetchOpenfda sid cache net retries).result = emptyOFDA)) ∧
    (['P'].isPrefixOf (upperL sid.data) = true → 1 ≤ retries →
      1 ≤ (fetchOpenfda sid cache net retries).calls ∧
      ((fetchOpenfda sid cache net retries).result.source = some "pma_number" ∨
        (fetchOpenfda sid cache net retries).result = emptyOFDA)) ∧
    (['D', 'E', 'N'].isPrefixOf (upperL sid.data) = true →
      fetchOpenfda sid cache net retries = ⟨emptyOFDA, cache, 0, 0⟩) := by
  rw [fetchOpenfda_uncached hne hmiss]
  refine ⟨?_, ?_, ?_⟩
  · intro hK hr
    rw [if_pos hK]
    exact ⟨fetchLoop_calls hr,
      fetchLoop_source "k_number" (String.mk (upperL sid.data)) net cache retries 0⟩
  · intro hP hr
    rw [if_neg (by simp [p_not_k hP]), if_pos hP]
    exact ⟨fetchLoop_calls hr,
      fetchLoop_source "pma_number" (String.mk (upperL sid.data)) net cache retries 0⟩
  · intro hden
    obtain ⟨hk, hp⟩ := den_not_kp hden
    rw [if_neg (by simp [hk]), if_neg (by simp [hp])]

/-- Witness for fetch_openfda_families_amended at concrete identifiers. -/
theorem fetch_openfda_families_amended_witness :
    1 ≤ (fetchOpenfda "K123456" [] (fun _ => .payload []) 3).calls ∧
    fetchOpenfda "DEN20" [] (fun _ => .failure) 3 = ⟨emptyOFDA, [], 0, 0⟩ :=
  ⟨((fetch_openfda_families_amended "K123456" [] (fun _ => .payload []) 3
      (by decide) rfl).1 (by decide) (by omega)).1,
   (fetch_openfda_families_amended "DEN20" [] (fun _ => .failure) 3
      (by decide) rfl).2.2 (by decide)⟩

/-- CLAIM C7: for an uncached K- or P-family identifier, when every one of
the retries attempts fails with a network or decode error, fetch_openfda
returns the empty result and leaves the cache unchanged, so a future run
retries from scratch. -/
theorem fetch_openfda_retry_exhaustion (sid : String) (cache : OFDACache)
    (net : Nat → NetResponse) (retries : Nat) (hne : sid ≠ "")
    (hmiss : cacheFind (String.mk (upperL sid.data)) cache = none)
    (hfam : ['K'].isPrefixOf (upperL sid.data) = true ∨
      ['P'].isPrefixOf (upperL sid.data) = true)
    (hfail : ∀ i, i < retries → net i = .failure) :
    (fetchOpenfda sid cache net retries).result = emptyOFDA ∧
    (fetchOpenfda sid cache net retries).cache = cache := by
  rw [fetchOpenfda_uncached hne hmiss]
  have hall : ∀ i, 0 ≤ i → i < 0 + retries → net i = .failure :=
    fun i h1 h2 => hfail i (by omega)
  rcases hfam with hK | hP
  · rw [if_pos hK]
    exact fetchLoop_all_failures "k_number" (String.mk (upperL sid.data))
      net cache retries 0 hall
  · rw [if_neg (by simp [p_not_k hP]), if_pos hP]
    exact fetchLoop_all_failures "pma_number" (String.mk (upperL sid.data))
      net cache retries 0 hall

/-- Witness for fetch_openfda_retry_exhaustion at a concrete identifier. -/
theorem fetch_openfda_retry_exhaustion_witness :
    (fetchOpenfda "K99" [] (fun _ => .failure) 3).result = emptyOFDA ∧
    (fetchOpenfda "K99" [] (fun _ => .failure) 3).cache = [] :=
  fetch_openfda_retry_exhaustion "K99" [] (fun _ => .failure) 3 (by decide) rfl
    (Or.inl (by decide)) (fun i h => rfl)

/-- CLAIM C8: a non-empty identifier whose uppercased form is cached
returns exactly the cached entry with zero network requests and zero
sleeps and leaves the cache unchanged; consequently a second call with
the resulting cache reproduces the same outcome with no further requests. -/
theorem fetch_openfda_cache_idempotent (sid : String) (cache : OFDACache)
    (net : Nat → NetResponse) (retries : Nat) (e : OFDAEntry) (hne : sid ≠ "")
    (hhit : cacheFind (String.mk (upperL sid.data)) cache = some e) :
    fetchOpenfda sid cache net retries = ⟨e, cache, 0, 0⟩ ∧
    fetchOpenfda sid (fetchOpenfda sid cache net retries).cache net retries =
      fetchOpenfda sid cache net retries := by
  have h1 := @fetchOpenfda_cached sid cache net retries e hne hhit
  exact ⟨h1, by rw [h1]; exact @fetchOpenfda_cached sid cache net retries e hne hhit⟩

/-- Witness for fetch_openfda_cache_idempotent at a concrete warm cache. -/
theorem fetch_openfda_cache_idempotent_witness :
    fetchOpenfda "k1" [("K1", ⟨"2020-01-01", "2020-02-02", some "k_number"⟩)]
        (fun _ => .failure) 3 =
      ⟨⟨"2020-01-01", "2020-02-02", some "k_number"⟩,
        [("K1", ⟨"2020-01-01", "2020-02-02", some "k_number"⟩)], 0, 0⟩ :=
  (fetch_openfda_cache_idempotent "k1"
    [("K1", ⟨"2020-01-01", "2020-02-02", some "k_number"⟩)] (fun _ => .failure) 3
    ⟨"2020-01-01", "2020-02-02", some "k_number"⟩ (by decide) rfl).1

/-- Model of Python substring containment, needle in hay. -/
def subL (needle : List Char) : List Char → Bool
  | [] => needle.isEmpty
  | c :: rest => needle.isPrefixOf (c :: rest) || subL needle rest

/-- The positive keyword list SUMMARY_KEYWORDS of extract_summaries.py. -/
def SUMMARY_KEYWORDS : List String :=
  ["summary of safety and effectiveness", "summary of safety", "ssed", "summary",
   "510(k) summary", "executive summary", "decision summary"]

/-- The negative keyword list NEGATIVE_KEYWORDS of extract_summaries.py. -/
def NEGATIVE_KEYWORDS : List String :=
  ["label", "labeling", "instructions", "ifu", "manual", "brochure", "addendum",
   "review"]

/-- Embedding of score_link (scripts/extract_summaries.py lines 90-102):
each positive keyword adds 3 when found in the lowercased anchor text,
else 1 when found in the lowercased URL; each negative keyword subtracts
2 when found in either. -/
def scoreLink (text href : String) : Int :=
  NEGATIVE_KEYWORDS.foldl
    (fun s k => if subL k.data (lowerL text.data) || subL k.data (lowerL href.data)
      then s - 2 else s)
    (SUMMARY_KEYWORDS.foldl
      (fun s k => if subL k.data (lowerL text.data) then s + 3
        else if subL k.data (lowerL href.data) then s + 1 else s) 0)

/-- The scoring formula exactly as CLAIM C2 words it: plus 3 for each
positive keyword in the anchor text, plus 1 for each positive keyword in
the URL (both summed independently), minus 2 for each negative keyword in
either. -/
def scoreLinkClaimed (text href : String) : Int :=
  (SUMMARY_KEYWORDS.map (fun k =>
    if subL k.data (lowerL text.data) then (3 : Int) else 0)).sum +
  (SUMMARY_KEYWORDS.map (fun k =>
    if subL k.data (lowerL href.data) then (1 : Int) else 0)).sum +
  (NEGATIVE_KEYWORDS.map (fun k =>
    if subL k.data (lowerL text.data) || subL k.data (lowerL href.data)
      then (-2 : Int) else 0)).sum

/-- The corrected closed form of the score: the URL bonus of a positive
keyword is awarded only when the keyword is absent from the anchor text. -/
def scoreLinkSpec (text href : String) : Int :=
  (SUMMARY_KEYWORDS.map (fun k =>
    if subL k.data (lowerL text.data) then (3 : Int)
    else if subL k.data (lowerL href.data) then 1 else 0)).sum +
  (NEGATIVE_KEYWORDS.map (fun k =>
    if subL k.data (lowerL text.data) || subL k.data (lowerL href.data)
      then (-2 : Int) else 0)).sum

/-- Counterexample to CLAIM C2: on anchor text summary and href
summary.pdf the keyword summary occurs in both the anchor text and the
URL, so the claimed formula gives 3 + 1 = 4, but the code's elif awards
only the 3. -/
theorem score_link_sum_formula_cex :
    scoreLink "summary" "summary.pdf" = 3 ∧
    scoreLinkClaimed "summary" "summary.pdf" = 4 := by
  constructor
  · decide
  · decide

theorem foldl_add_sum (f : String → Int) :
    ∀ (l : List String) (init : Int),
      l.foldl (fun s k => s + f k) init = init + (l.map f).sum := by
  intro l
  induction l with
  | nil =>
    intro init
    simp
  | cons a rest ih =>
    intro init
    simp only [List.foldl_cons, List.map_cons, List.sum_cons, ih]
    ring

/-- CLAIM C2 (amended): score_link equals the per-keyword sum in which a
positive keyword contributes 3 when in the anchor text, otherwise 1 when
in the URL, otherwise 0, and each negative keyword found in either place
contributes minus 2; the claimed independent anchor-plus-URL sum
overcounts keywords present in both.  The documented scenarios hold: the
510(k) Summary anchor on a summary.pdf href scores at least 3 and the
Instructions for Use anchor on ifu.pdf scores negative. -/
theorem score_link_amended (text href : String) :
    scoreLink text href = scoreLinkSpec text href ∧
    3 ≤ scoreLink "510(k) Summary" "https://www.accessdata.fda.gov/summary.pdf" ∧
    scoreLink "Instructions for Use" "ifu.pdf" < 0 := by
  refine ⟨?_, by decide, by decide⟩
  rw [scoreLink, scoreLinkSpec]
  have hpos : (fun (s : Int) (k : String) =>
      if subL k.data (lowerL text.data) then s + 3
      else if subL k.data (lowerL href.data) then s + 1 else s) =
      fun s k => s + (if subL k.data (lowerL text.data) then (3 : Int)
        else if subL k.data (lowerL href.data) then 1 else 0) := by
    funext s k
    by_cases h1 : subL k.data (lowerL text.data) = true <;>
      by_cases h2 : subL k.data (lowerL href.data) = true <;> simp [h1, h2]
  have hneg : (fun (s : Int) (k : String) =>
      if subL k.data (lowerL text.data) || subL k.data (lowerL href.data)
        then s - 2 else s) =
      fun s k => s + (if subL k.data (lowerL text.data) || subL k.data (lowerL href.data)
        then (-2 : Int) else 0) := by
    funext s k
    by_cases h : (subL k.data (lowerL text.data) || subL k.data (lowerL href.data)) = true
    · simp only [h, if_true]
      ring
    · simp [h]
  rw [hpos, hneg, foldl_add_sum, foldl_add_sum]
  ring

/-- Search for the regex of a dot followed by pdf at the end of the href
or before a question mark, case-insensitively, at any position. -/
def pdfSearch : List Char → Bool
  | c1 :: c2 :: c3 :: c4 :: rest =>
    (c1 = '.' && c2.toLower = 'p' && c3.toLower = 'd' && c4.toLower = 'f' &&
      (match rest with
       | [] => true
       | q :: _ => q = '?')) ||
      pdfSearch (c2 :: c3 :: c4 :: rest)
  | _ => false

/-- First split of a list around an occurrence of pat: some (pre, post)
with the list equal to pre, pat, post in sequence and pre minimal; none
when pat does not occur. -/
def splitFirstSub (pat : List Char) : List Char → Option (List Char × List Char)
  | [] => none
  | c :: rest =>
    if pat.isPrefixOf (c :: rest) then some ([], (c :: rest).drop pat.length)
    else
      match splitFirstSub pat rest with
      | some (pre, post) => some (c :: pre, post)
      | none => none

/-- Scheme and authority of a URL, for resolving root-relative hrefs. -/
def schemeHost (l : List Char) : List Char :=
  match splitFirstSub [':', '/', '/'] l with
  | some (pre, post) => pre ++ [':', '/', '/'] ++ post.takeWhile (fun c => c ≠ '/')
  | none => []

/-- Base URL up to and including its last slash, for resolving relative
hrefs. -/
def upToLastSlash (l : List Char) : List Char :=
  (l.reverse.dropWhile (fun c => c ≠ '/')).reverse

/-- Model of urllib.parse.urljoin for the href shapes arising on these
pages: an absolute http or https URL is returned unchanged, a
root-relative path is resolved against the base's scheme and host, and
any other path replaces the last segment of the base. -/
def urljoin (base url : String) : String :=
  if "http://".data.isPrefixOf url.data || "https://".data.isPrefixOf url.data then url
  else if ['/'].isPrefixOf url.data then String.mk (schemeHost base.data ++ url.data)
  else String.mk (upToLastSlash base.data ++ url.data)

/-- A candidate document link with its relevance score, as built by
find_summary_pdfs. -/
structure ScoredCandidate where
  url : String
  text : String
  score : Int
deriving DecidableEq, Repr

/-- The scored candidate list of find_summary_pdfs in discovery order:
links with empty or non-pdf hrefs are dropped, hrefs are resolved against
the base URL, and each kept link is scored. -/
def scoredCandidates (links : List (String × String)) (baseUrl : String) :
    List ScoredCandidate :=
  (links.filterMap (fun hr =>
    if hr.1 = "" then none
    else if pdfSearch hr.1.data then some (urljoin baseUrl hr.1, hr.2) else none)).map
    (fun l => ⟨l.1, l.2, scoreLink l.2 l.1⟩)

/-- Embedding of find_summary_pdfs (scripts/extract_summaries.py lines
105-127) on the href and anchor-text pairs produced by parse_links: if no
pdf-like link exists the result is empty; otherwise the strictly
positive-scoring candidates when any exist, else all candidates, sorted
by score descending with Python's stable list sort (modelled by stable
insertion sort, to which every stable sort is extensionally equal). -/
def findSummaryPdfs (links : List (String × String)) (baseUrl : String) :
    List ScoredCandidate :=
  if scoredCandidates links baseUrl = [] then []
  else
    List.insertionSort (fun a b => b.score ≤ a.score)
      (if (scoredCandidates links baseUrl).filter (fun i => 0 < i.score) = [] then
        scoredCandidates links baseUrl
      else (scoredCandidates links baseUrl).filter (fun i => 0 < i.score))

instance : IsTotal ScoredCandidate (fun a b => b.score ≤ a.score) :=
  ⟨fun a b => Int.le_total b.score a.score⟩

instance : IsTrans ScoredCandidate (fun a b => b.score ≤ a.score) :=
  ⟨fun _ _ _ hab hbc => le_trans hbc hab⟩

/-- Counterexample to CLAIM C1: on a page whose two pdf links score minus
2 and 0 (no candidate strictly positive), find_summary_pdfs still sorts
by score descending instead of returning the candidates in discovery
order. -/
theorem find_summary_pdfs_discovery_order_cex :
    (∀ c ∈ scoredCandidates
        [("https://a.gov/m.pdf", "manual"), ("https://a.gov/b.pdf", "")] "https://a.gov/p",
      ¬ 0 < c.score) ∧
    findSummaryPdfs [("https://a.gov/m.pdf", "manual"), ("https://a.gov/b.pdf", "")]
        "https://a.gov/p" ≠
      scoredCandidates [("https://a.gov/m.pdf", "manual"), ("https://a.gov/b.pdf", "")]
        "https://a.gov/p" := by
  constructor
  · decide
  · decide

/-- CLAIM C1 (amended): when at least one candidate scores strictly
positive, find_summary_pdfs returns exactly the positive-scoring
candidates sorted descending by score; when no candidate scores strictly
positive it returns all candidates, also sorted descending by score (not
in discovery order). -/
theorem find_summary_pdfs_amended (links : List (String × String)) (baseUrl : String) :
    ((∃ c ∈ scoredCandidates links baseUrl, 0 < c.score) →
      (findSummaryPdfs links baseUrl).Perm
        ((scoredCandidates links baseUrl).filter (fun i => 0 < i.score)) ∧
      List.Sorted (fun a b => b.score ≤ a.score) (findSummaryPdfs links baseUrl) ∧
      (∀ c ∈ findSummaryPdfs links baseUrl, 0 < c.score)) ∧
    ((∀ c ∈ scoredCandidates links baseUrl, ¬ 0 < c.score) →
      (findSummaryPdfs links baseUrl).Perm (scoredCandidates links baseUrl) ∧
      List.Sorted (fun a b => b.score ≤ a.score) (findSummaryPdfs links baseUrl)) := by
  constructor
  · intro hex
    obtain ⟨c, hc, hcpos⟩ := hex
    have hne : scoredCandidates links baseUrl ≠ [] := by
      intro h
      rw [h] at hc
      exact absurd hc (List.not_mem_nil c)
    have hmemf : c ∈ (scoredCandidates links baseUrl).filter (fun i => 0 < i.score) :=
      List.mem_filter.mpr ⟨hc, by simpa using hcpos⟩
    have hpref : (scoredCandidates links baseUrl).filter (fun i => 0 < i.score) ≠ [] := by
      intro h
      rw [h] at hmemf
      exact absurd hmemf (List.not_mem_nil c)
    rw [findSummaryPdfs, if_neg hne, if_neg hpref]
    refine ⟨List.perm_insertionSort _ _, List.sorted_insertionSort _ _, ?_⟩
    intro d hd
    have hd2 := (List.perm_insertionSort
      (fun a b : ScoredCandidate => b.score ≤ a.score)
      ((scoredCandidates links baseUrl).filter (fun i => 0 < i.score))).mem_iff.mp hd
    simpa using (List.mem_filter.mp hd2).2
  · intro hall
    have hfil : (scoredCandidates links baseUrl).filter (fun i => 0 < i.score) = [] := by
      rw [List.filter_eq_nil_iff]
      intro a ha
      simpa using hall a ha
    by_cases hne : scoredCandidates links baseUrl = []
    · rw [findSummaryPdfs, if_pos hne, hne]
      exact ⟨List.Perm.refl [], List.sorted_nil⟩
    · rw [findSummaryPdfs, if_neg hne, if_pos hfil]
      exact ⟨List.perm_insertionSort _ _, List.sorted_insertionSort _ _⟩

/-- Witness for find_summary_pdfs_amended at concrete pages. -/
theorem find_summary_pdfs_amended_witness :
    (findSummaryPdfs [("https://a.gov/summary.pdf", "510(k) Summary")]
        "https://a.gov/p").Perm
      ((scoredCandidates [("https://a.gov/summary.pdf", "510(k) Summary")]
          "https://a.gov/p").filter (fun i => 0 < i.score)) ∧
    (findSummaryPdfs [("https://a.gov/m.pdf", "manual"), ("https://a.gov/b.pdf", "")]
        "https://a.gov/p").Perm
      (scoredCandidates [("https://a.gov/m.pdf", "manual"), ("https://a.gov/b.pdf", "")]
        "https://a.gov/p") :=
  ⟨((find_summary_pdfs_amended [("https://a.gov/summary.pdf", "510(k) Summary")]
      "https://a.gov/p").1 (by decide)).1,
   ((find_summary_pdfs_amended [("https://a.gov/m.pdf", "manual"), ("https://a.gov/b.pdf", "")]
      "https://a.gov/p").2 (by decide)).1⟩

/-- Case-insensitive character comparison, for the IGNORECASE regexes. -/
def ciEq (a b : Char) : Bool := a.toLower = b.toLower

/-- Case-insensitive prefix test. -/
def ciIsPrefixOf : List Char → List Char → Bool
  | [], _ => true
  | _ :: _, [] => false
  | a :: as, b :: bs => ciEq a b && ciIsPrefixOf as bs

/-- Attempt of the HYPERLINK directive regex at one position: the literal
opening (letters case-insensitive), a nonempty quote-free URL group, a
closing quote, a comma, optional whitespace, a quoted nonempty quote-free
display group, and the closing parenthesis.  The two character-class
groups are forced, so the regex match here is deterministic. -/
def tryHyperlinkAt (l : List Char) : Option (List Char × List Char) :=
  if ciIsPrefixOf "HYPERLINK(\"".data l then
    match splitFirstSub ['"'] (l.drop 11) with
    | none => none
    | some (url, rest2) =>
      if url = [] then none
      else
        match rest2 with
        | ',' :: rest3 =>
          match rest3.dropWhile isPySpace with
          | '"' :: rest5 =>
            match splitFirstSub ['"'] rest5 with
            | none => none
            | some (disp, rest6) =>
              if disp = [] then none
              else
                match rest6 with
                | ')' :: _ => some (url, disp)
                | _ => none
          | _ => none
        | _ => none
  else none

/-- Leftmost search of the HYPERLINK directive regex. -/
def searchHyperlink : List Char → Option (List Char × List Char)
  | [] => none
  | c :: rest =>
    match tryHyperlinkAt (c :: rest) with
    | some r => some r
    | none => searchHyperlink rest

/-- Characters admitted in the bare-URL regex body: anything that is not
whitespace, a closing parenthesis or a double quote. -/
def urlCharOk (c : Char) : Bool := !(isPySpace c || c = ')' || c = '"')

/-- Attempt of the bare-URL regex at one position: the http or https
scheme (case-sensitive) followed by at least one admitted character,
matched greedily. -/
def tryUrlAt (l : List Char) : Option (List Char) :=
  if "https://".data.isPrefixOf l then
    if (l.drop 8).takeWhile urlCharOk = [] then none
    else some ("https://".data ++ (l.drop 8).takeWhile urlCharOk)
  else if "http://".data.isPrefixOf l then
    if (l.drop 7).takeWhile urlCharOk = [] then none
    else some ("http://".data ++ (l.drop 7).takeWhile urlCharOk)
  else none

/-- Leftmost search of the bare-URL regex. -/
def searchUrl : List Char → Option (List Char)
  | [] => none
  | c :: rest =>
    match tryUrlAt (c :: rest) with
    | some r => some r
    | none => searchUrl rest

/-- Attempt of the submission-id regex at one position, alternatives in
order: DEN then digits, else K or P then digits, case-insensitively and
with greedy digits. -/
def tryIdAt (l : List Char) : Option (List Char) :=
  match l with
  | d :: e :: n :: rest =>
    if ciEq d 'D' && ciEq e 'E' && ciEq n 'N' &&
        !(rest.takeWhile Char.isDigit).isEmpty then
      some (d :: e :: n :: rest.takeWhile Char.isDigit)
    else
      match l with
      | k :: rest2 =>
        if (ciEq k 'K' || ciEq k 'P') && !(rest2.takeWhile Char.isDigit).isEmpty then
          some (k :: rest2.takeWhile Char.isDigit)
        else none
      | _ => none
  | k :: rest2 =>
    if (ciEq k 'K' || ciEq k 'P') && !(rest2.takeWhile Char.isDigit).isEmpty then
      some (k :: rest2.takeWhile Char.isDigit)
    else none
  | _ => none

/-- Leftmost search of the submission-id regex SUBMISSION_ID_RE. -/
def searchSubmissionId : List Char → Option (List Char)
  | [] => none
  | c :: rest =>
    match tryIdAt (c :: rest) with
    | some r => some r
    | none => searchSubmissionId rest

/-- Embedding of build_submission_url (scripts/update_data.py lines
74-93): uppercase the id, then the per-family URL template; an empty id
or unrecognized prefix gives the empty string. -/
def buildSubmissionUrl (submission_id : String) : String :=
  if submission_id = "" then ""
  else if ['K'].isPrefixOf (upperL submission_id.data) then
    String.mk ("https://www.accessdata.fda.gov/scripts/cdrh/cfdocs/cfPMN/pmn.cfm?ID=".data
      ++ upperL submission_id.data)
  else if ['P'].isPrefixOf (upperL submission_id.data) then
    String.mk ("https://www.accessdata.fda.gov/scripts/cdrh/cfdocs/cfpma/pma.cfm?id=".data
      ++ upperL submission_id.data)
  else if ['D', 'E', 'N'].isPrefixOf (upperL submission_id.data) then
    String.mk ("https://www.accessdata.fda.gov/scripts/cdrh/cfdocs/cfpmn/denovo.cfm?id=".data
      ++ upperL submission_id.data)
  else ""

/-- Embedding of parse_submission (scripts/update_data.py lines 96-126):
the stripped field is searched for a HYPERLINK directive whose groups are
taken directly (URL stripped, display stripped and uppercased); otherwise
a bare URL and a bare identifier are extracted independently; a still
missing identifier is searched for in the URL, and a still missing URL is
synthesized from the identifier. -/
def parseSubmission (raw_value : String) : String × String :=
  let raw := pyStrip raw_value.data
  let first : List Char × List Char :=
    match searchHyperlink raw with
    | some (u, d) => (upperL (pyStrip d), pyStrip u)
    | none =>
      let url := (searchUrl raw).getD []
      let sid :=
        match searchSubmissionId raw with
        | some i => upperL i
        | none =>
          if url ≠ [] then
            match searchSubmissionId url with
            | some i => upperL i
            | none => []
          else []
      (sid, url)
  let sid2 :=
    if first.1 = [] ∧ first.2 ≠ [] then
      match searchSubmissionId first.2 with
      | some i => upperL i
      | none => first.1
    else first.1
  let url2 :=
    if first.2 = [] ∧ sid2 ≠ [] then (buildSubmissionUrl (String.mk sid2)).data
    else first.2
  (String.mk sid2, String.mk url2)

/-- Counterexample to CLAIM C10: on a HYPERLINK directive whose display
text is a single space, the stripped display is empty, so parse_submission
does invoke the bare-identifier fallback on the URL and returns K123456
extracted from the URL rather than the uppercased display text. -/
theorem parse_submission_hyperlink_cex :
    (parseSubmission "HYPERLINK(\"https://x.gov/K123456\", \" \")").1 = "K123456" ∧
    ("K123456" : String) ≠ " " ∧ ("K123456" : String) ≠ "" := by
  refine ⟨by decide, by decide, by decide⟩

theorem upperL_ne_nil {l : List Char} (h : l ≠ []) : upperL l ≠ [] := by
  intro hc
  exact h (List.map_eq_nil_iff.mp hc)

/-- CLAIM C10 (amended): for a raw field containing a HYPERLINK directive
whose display text and URL both strip to nonempty text, parse_submission
returns the stripped display text uppercased as the identifier and the
stripped directive URL, with no family validation and without the
fallback extraction or URL synthesis; the identifier may therefore lie
outside the DEN, K and P families. -/
theorem parse_submission_hyperlink_amended (raw_value : String) (u d : List Char)
    (hs : searchHyperlink (pyStrip raw_value.data) = some (u, d))
    (hd : pyStrip d ≠ []) (hu : pyStrip u ≠ []) :
    parseSubmission raw_value = (String.mk (upperL (pyStrip d)), String.mk (pyStrip u)) := by
  have hdu : upperL (pyStrip d) ≠ [] := upperL_ne_nil hd
  simp only [parseSubmission, hs]
  rw [if_neg (fun hcon => hdu hcon.1), if_neg (fun hcon => hu hcon.1)]

/-- Witness for parse_submission_hyperlink_amended at a concrete directive
whose display text lies outside the three identifier families. -/
theorem parse_submission_hyperlink_amended_witness :
    parseSubmission "HYPERLINK(\"https://example.gov/x\",\"FOO99\")" =
      ("FOO99", "https://example.gov/x") := by
  rw [parse_submission_hyperlink_amended "HYPERLINK(\"https://example.gov/x\",\"FOO99\")"
    "https://example.gov/x".data "FOO99".data (by decide) (by decide) (by decide)]
  decide

theorem splitFirstSub_eq {pat : List Char} : ∀ {l pre post : List Char},
    splitFirstSub pat l = some (pre, post) → l = pre ++ pat ++ post := by
  intro l
  induction l with
  | nil =>
    intro pre post h
    simp [splitFirstSub] at h
  | cons c rest ih =>
    intro pre post h
    rw [splitFirstSub] at h
    by_cases hp : pat.isPrefixOf (c :: rest) = true
    · rw [if_pos hp] at h
      cases h
      obtain ⟨t, ht⟩ := List.isPrefixOf_iff_prefix.mp hp
      have hdrop : (c :: rest).drop pat.length = t := by
        rw [← ht]
        exact List.drop_left _ _
      rw [hdrop, ← ht]
      simp
    · rw [if_neg hp] at h
      cases hsp : splitFirstSub pat rest with
      | none =>
        rw [hsp] at h
        simp at h
      | some pp =>
        obtain ⟨pre2, post2⟩ := pp
        rw [hsp] at h
        cases h
        have := ih hsp
        simp [this]

/-- The fixed opening literal of the rawData delimiter pattern. -/
def rawDataLit : List Char := "const rawData = [".data

/-- The fixed closing literal of the rawData delimiter pattern. -/
def rawDataClose : List Char := "];".data

/-- One piece of a compiled re.subn replacement template for a pattern
without capture groups: a literal character, or a reference to group 0,
the whole match. -/
inductive ReplPiece where
  | lit (c : Char)
  | group0
deriving DecidableEq, Repr

deriving instance DecidableEq for Except

/-- Numeric value of an octal digit character. -/
def isOctDigit (c : Char) : Bool := '0' ≤ c && c ≤ '7'

/-- Whether the character is an ASCII letter, the range for which an
unknown replacement escape raises re.error. -/
def isAsciiLetter (c : Char) : Bool := ('a' ≤ c && c ≤ 'z') || ('A' ≤ c && c ≤ 'Z')

/-- The literal escapes re recognises in a replacement template. -/
def escMap : Char → Option Char
  | '\\' => some '\\'
  | 'a' => some '\x07'
  | 'b' => some '\x08'
  | 'f' => some '\x0c'
  | 'n' => some '\n'
  | 'r' => some '\r'
  | 't' => some '\t'
  | 'v' => some '\x0b'
  | _ => none

/-- Digit-and-underscore tail of Python int() on ASCII text: underscores
are admitted only singly and between digits. -/
def pyIntCore : Nat → List Char → Option Nat
  | acc, [] => some acc
  | acc, c :: rest =>
    if c.isDigit then pyIntCore (acc * 10 + charVal c) rest
    else if c = '_' then
      match rest with
      | d :: rest2 =>
        if d.isDigit then pyIntCore (acc * 10 + charVal d) rest2 else none
      | [] => none
    else none

/-- Model of Python int() on ASCII text: surrounding whitespace stripped,
an optional sign, then decimal digits with single underscores between
digits; none when unparsable.  Used for the group name inside a
backslash-g reference of a replacement template. -/
def pyInt (l : List Char) : Option Int :=
  match pyStrip l with
  | '+' :: c :: rest =>
    if c.isDigit then (pyIntCore (charVal c) rest).map (fun n => (n : Int)) else none
  | '-' :: c :: rest =>
    if c.isDigit then (pyIntCore (charVal c) rest).map (fun n => -(n : Int)) else none
  | c :: rest =>
    if c.isDigit then (pyIntCore (charVal c) rest).map (fun n => (n : Int)) else none
  | [] => none

/-- Model of sre parse_template for a pattern with no capture groups,
processing the replacement string of re.subn.  A backslash introduces:
one of the eight literal escapes; a group reference backslash-g requiring
an angle-bracketed name, valid only when the name parses as the integer
zero (the whole match) since the pattern has no groups; an octal escape
starting with zero taking up to two more octal digits; a digit sequence
that is a three-octal-digit escape when all three digits are octal
(raising when its value exceeds 255) and otherwise a reference to a
nonexistent group, which raises; any other ASCII letter raises bad
escape; any other character is kept together with the backslash.  A
trailing backslash raises.  The fuel argument is always called with the
length of the template, making the recursion structural. -/
def parseTemplateAux : Nat → List Char → Except String (List ReplPiece)
  | 0, _ => Except.ok []
  | _ + 1, [] => Except.ok []
  | fuel + 1, '\\' :: rest =>
    match rest with
    | [] => Except.error "bad escape (end of pattern)"
    | c :: rest2 =>
      match escMap c with
      | some e =>
        match parseTemplateAux fuel rest2 with
        | Except.error msg => Except.error msg
        | Except.ok t => Except.ok (.lit e :: t)
      | none =>
        if c = 'g' then
          match rest2 with
          | '<' :: rest3 =>
            match splitFirstSub ['>'] rest3 with
            | none => Except.error "missing >, unterminated name"
            | some (name, rest4) =>
              if name = [] then Except.error "missing group name"
              else
                match pyInt name with
                | some 0 =>
                  match parseTemplateAux fuel rest4 with
                  | Except.error msg => Except.error msg
                  | Except.ok t => Except.ok (.group0 :: t)
                | some _ => Except.error "invalid group reference"
                | none => Except.error "unknown group name"
          | _ => Except.error "missing <"
        else if c = '0' then
          match rest2 with
          | o1 :: o2 :: rest3 =>
            if isOctDigit o1 && isOctDigit o2 then
              match parseTemplateAux fuel rest3 with
              | Except.error msg => Except.error msg
              | Except.ok t => Except.ok (.lit (Char.ofNat (charVal o1 * 8 + charVal o2)) :: t)
            else if isOctDigit o1 then
              match parseTemplateAux fuel (o2 :: rest3) with
              | Except.error msg => Except.error msg
              | Except.ok t => Except.ok (.lit (Char.ofNat (charVal o1)) :: t)
            else
              match parseTemplateAux fuel rest2 with
              | Except.error msg => Except.error msg
              | Except.ok t => Except.ok (.lit '\x00' :: t)
          | [o1] =>
            if isOctDigit o1 then Except.ok [.lit (Char.ofNat (charVal o1))]
            else
              match parseTemplateAux fuel rest2 with
              | Except.error msg => Except.error msg
              | Except.ok t => Except.ok (.lit '\x00' :: t)
          | [] => Except.ok [.lit '\x00']
        else if c.isDigit then
          match rest2 with
          | d2 :: d3 :: rest3 =>
            if isOctDigit c && isOctDigit d2 && isOctDigit d3 then
              if (charVal c * 8 + charVal d2) * 8 + charVal d3 > 255 then
                Except.error "octal escape value outside of range 0-0o377"
              else
                match parseTemplateAux fuel rest3 with
                | Except.error msg => Except.error msg
                | Except.ok t =>
                  Except.ok (.lit (Char.ofNat ((charVal c * 8 + charVal d2) * 8 + charVal d3)) :: t)
            else Except.error "invalid group reference"
          | _ => Except.error "invalid group reference"
        else if isAsciiLetter c then Except.error "bad escape"
        else
          match parseTemplateAux fuel rest2 with
          | Except.error msg => Except.error msg
          | Except.ok t => Except.ok (.lit '\\' :: .lit c :: t)
  | fuel + 1, c :: rest =>
    match parseTemplateAux fuel rest with
    | Except.error msg => Except.error msg
    | Except.ok t => Except.ok (.lit c :: t)

/-- Compilation of the re.subn replacement string, performed before any
matching; a replacement without backslashes trivially compiles to its own
characters, matching the literal fast path of re. -/
def parseTemplate (l : List Char) : Except String (List ReplPiece) :=
  parseTemplateAux l.length l

/-- Expansion of a compiled replacement template at one match: group-0
pieces expand to the matched text. -/
def expandRepl (tmpl : List ReplPiece) (matched : List Char) : List Char :=
  match tmpl with
  | [] => []
  | .lit c :: rest => c :: expandRepl rest matched
  | .group0 :: rest => matched ++ expandRepl rest matched

/-- Model of re.subn for the rawData pattern with its lazy body: scan left
to right; a match starts at the opening literal and extends to the first
closing literal after it; each matched block is replaced by the filter
applied to the matched text and counted, and scanning resumes after it;
at a position where the opening matches but no closing follows, the scan
advances one character, as the regex engine does.  The fuel argument is
always called with the length of the scanned list, making the recursion
structural. -/
def subnAux (filter : List Char → List Char) : Nat → List Char → (List Char × Nat)
  | 0, l => (l, 0)
  | _ + 1, [] => ([], 0)
  | fuel + 1, c :: rest =>
    if rawDataLit.isPrefixOf (c :: rest) then
      match splitFirstSub rawDataClose ((c :: rest).drop rawDataLit.length) with
      | some (mid, post) =>
        (filter (rawDataLit ++ mid ++ rawDataClose) ++ (subnAux filter fuel post).1,
          (subnAux filter fuel post).2 + 1)
      | none =>
        (c :: (subnAux filter fuel rest).1, (subnAux filter fuel rest).2)
    else
      (c :: (subnAux filter fuel rest).1, (subnAux filter fuel rest).2)

/-- re.subn of the rawData pattern over content with a per-match
replacement filter: replaced content and match count. -/
def subnFilter (filter : List Char → List Char) (l : List Char) : List Char × Nat :=
  subnAux filter l.length l

/-- Number of matches of the rawData delimiter pattern, a property of the
content alone. -/
def countRawData (l : List Char) : Nat := (subnAux id l.length l).2

/-- Embedding of update_index_html (scripts/update_data.py lines 232-245)
at the content level: the serialized dataset is interpolated into the
replacement string handed to re.subn, which first compiles it as a
replacement template (so invalid backslash escapes raise before any
matching), then replaces each match by the template expansion; a match
count other than one raises. -/
def updateIndexHtml (content dataJson : String) : Except String String :=
  match parseTemplate ("const rawData = ".data ++ dataJson.data ++ ";".data) with
  | Except.error e => Except.error e
  | Except.ok tmpl =>
    if (subnFilter (expandRepl tmpl) content.data).2 ≠ 1 then
      Except.error "Unable to locate rawData block in index.html"
    else Except.ok (String.mk (subnFilter (expandRepl tmpl) content.data).1)

theorem post_length_lt {c : Char} {rest pre post : List Char}
    (hlit : rawDataLit.isPrefixOf (c :: rest) = true)
    (hsp : splitFirstSub rawDataClose ((c :: rest).drop rawDataLit.length) = some (pre, post)) :
    post.length < rest.length + 1 := by
  have heq := splitFirstSub_eq hsp
  have hlen := congrArg List.length heq
  simp only [List.length_drop, List.length_append, List.length_cons] at hlen
  have hle : rawDataLit.length ≤ (c :: rest).length :=
    (List.isPrefixOf_iff_prefix.mp hlit).length_le
  have h17 : rawDataLit.length = 17 := rfl
  have h2 : rawDataClose.length = 2 := rfl
  rw [h17, h2] at hlen
  rw [h17] at hle
  simp only [List.length_cons] at hle
  omega

theorem subnAux_cons_lit_some {filter : List Char → List Char} {fuel : Nat} {c : Char}
    {rest mid post : List Char}
    (hlit : rawDataLit.isPrefixOf (c :: rest) = true)
    (hsp : splitFirstSub rawDataClose ((c :: rest).drop rawDataLit.length) =
      some (mid, post)) :
    subnAux filter (fuel + 1) (c :: rest) =
      (filter (rawDataLit ++ mid ++ rawDataClose) ++ (subnAux filter fuel post).1,
        (subnAux filter fuel post).2 + 1) := by
  rw [subnAux, if_pos hlit, hsp]

theorem subnAux_cons_lit_none {filter : List Char → List Char} {fuel : Nat} {c : Char}
    {rest : List Char}
    (hlit : rawDataLit.isPrefixOf (c :: rest) = true)
    (hsp : splitFirstSub rawDataClose ((c :: rest).drop rawDataLit.length) = none) :
    subnAux filter (fuel + 1) (c :: rest) =
      (c :: (subnAux filter fuel rest).1, (subnAux filter fuel rest).2) := by
  rw [subnAux, if_pos hlit, hsp]

theorem subnAux_cons_nolit {filter : List Char → List Char} {fuel : Nat} {c : Char}
    {rest : List Char}
    (hlit : ¬ rawDataLit.isPrefixOf (c :: rest) = true) :
    subnAux filter (fuel + 1) (c :: rest) =
      (c :: (subnAux filter fuel rest).1, (subnAux filter fuel rest).2) := by
  rw [subnAux, if_neg hlit]

theorem subnAux_count_filter (f1 f2 : List Char → List Char) :
    ∀ fuel l, (subnAux f1 fuel l).2 = (subnAux f2 fuel l).2 := by
  intro fuel
  induction fuel with
  | zero =>
    intro l
    rfl
  | succ f ih =>
    intro l
    cases l with
    | nil => rfl
    | cons c rest =>
      by_cases hlit : rawDataLit.isPrefixOf (c :: rest) = true
      · cases hsp : splitFirstSub rawDataClose ((c :: rest).drop rawDataLit.length) with
        | none =>
          rw [subnAux_cons_lit_none hlit hsp, subnAux_cons_lit_none hlit hsp]
          simp [ih rest]
        | some pp =>
          obtain ⟨mid, post⟩ := pp
          rw [subnAux_cons_lit_some hlit hsp, subnAux_cons_lit_some hlit hsp]
          simp [ih post]
      · rw [subnAux_cons_nolit hlit, subnAux_cons_nolit hlit]
        simp [ih rest]

theorem subnAux_zero_count (filter : List Char → List Char) : ∀ fuel l, l.length ≤ fuel →
    (subnAux filter fuel l).2 = 0 → (subnAux filter fuel l).1 = l := by
  intro fuel
  induction fuel with
  | zero =>
    intro l hl hc
    rfl
  | succ f ih =>
    intro l hl hc
    cases l with
    | nil => rfl
    | cons c rest =>
      simp only [List.length_cons] at hl
      by_cases hlit : rawDataLit.isPrefixOf (c :: rest) = true
      · cases hsp : splitFirstSub rawDataClose ((c :: rest).drop rawDataLit.length) with
        | none =>
          rw [subnAux_cons_lit_none hlit hsp] at hc ⊢
          rw [ih rest (by omega) hc]
        | some pp =>
          obtain ⟨mid, post⟩ := pp
          rw [subnAux_cons_lit_some hlit hsp] at hc
          simp at hc
      · rw [subnAux_cons_nolit hlit] at hc ⊢
        rw [ih rest (by omega) hc]

theorem subnAux_one_count (filter : List Char → List Char) : ∀ fuel l, l.length ≤ fuel →
    (subnAux filter fuel l).2 = 1 →
    ∃ pre mid post, l = pre ++ rawDataLit ++ mid ++ rawDataClose ++ post ∧
      (subnAux filter fuel l).1 =
        pre ++ filter (rawDataLit ++ mid ++ rawDataClose) ++ post := by
  intro fuel
  induction fuel with
  | zero =>
    intro l hl hc
    simp [subnAux] at hc
  | succ f ih =>
    intro l hl hc
    cases l with
    | nil => simp [subnAux] at hc
    | cons c rest =>
      simp only [List.length_cons] at hl
      by_cases hlit : rawDataLit.isPrefixOf (c :: rest) = true
      · cases hsp : splitFirstSub rawDataClose ((c :: rest).drop rawDataLit.length) with
        | none =>
          rw [subnAux_cons_lit_none hlit hsp] at hc ⊢
          obtain ⟨pre, mid, post, hdec, hout⟩ := ih rest (by omega) hc
          exact ⟨c :: pre, mid, post, by simp [hdec], by simp [hout]⟩
        | some pp =>
          obtain ⟨mid0, post⟩ := pp
          rw [subnAux_cons_lit_some hlit hsp] at hc ⊢
          have hrec0 : (subnAux filter f post).2 = 0 := by omega
          have hlt := post_length_lt hlit hsp
          have hout := subnAux_zero_count filter f post (by omega) hrec0
          obtain ⟨t, ht⟩ := List.isPrefixOf_iff_prefix.mp hlit
          have hdrop : (c :: rest).drop rawDataLit.length = t := by
            rw [← ht]
            exact List.drop_left _ _
          have hteq : t = mid0 ++ rawDataClose ++ post := by
            rw [← hdrop]
            exact splitFirstSub_eq hsp
          refine ⟨[], mid0, post, ?_, ?_⟩
          · rw [← ht, hteq]
            simp
          · rw [hout]
            simp
      · rw [subnAux_cons_nolit hlit] at hc ⊢
        obtain ⟨pre, mid, post, hdec, hout⟩ := ih rest (by omega) hc
        exact ⟨c :: pre, mid, post, by simp [hdec], by simp [hout]⟩

theorem updateIndexHtml_eq (content dataJson : String) :
    updateIndexHtml content dataJson =
      match parseTemplate ("const rawData = ".data ++ dataJson.data ++ ";".data) with
      | Except.error e => Except.error e
      | Except.ok tmpl =>
        if (subnFilter (expandRepl tmpl) content.data).2 ≠ 1 then
          Except.error "Unable to locate rawData block in index.html"
        else Except.ok (String.mk (subnFilter (expandRepl tmpl) content.data).1) :=
  rfl

theorem updateIndexHtml_error_tmpl {content dataJson : String} {e : String}
    (hpt : parseTemplate ("const rawData = ".data ++ dataJson.data ++ ";".data) =
      Except.error e) :
    updateIndexHtml content dataJson = Except.error e := by
  rw [updateIndexHtml_eq, hpt]

theorem updateIndexHtml_ok_tmpl {content dataJson : String} {tmpl : List ReplPiece}
    (hpt : parseTemplate ("const rawData = ".data ++ dataJson.data ++ ";".data) =
      Except.ok tmpl) :
    updateIndexHtml content dataJson =
      if (subnFilter (expandRepl tmpl) content.data).2 ≠ 1 then
        Except.error "Unable to locate rawData block in index.html"
      else Except.ok (String.mk (subnFilter (expandRepl tmpl) content.data).1) := by
  rw [updateIndexHtml_eq, hpt]

/-- Counterexample to CLAIM C9: re.subn processes backslash escapes in
its replacement string, so the block is not replaced verbatim and the
error condition is not the match count alone.  On a file with exactly one
rawData block, a serialized dataset containing the JSON escape of a
backslash has its doubled backslash collapsed in the output, and a
serialized dataset containing a JSON unicode escape makes
update_index_html raise a bad-escape error even though the match count is
exactly one. -/
theorem update_index_html_template_cex :
    countRawData ("A const rawData = [0]; B" : String).data = 1 ∧
    updateIndexHtml "A const rawData = [0]; B" "[\"a\\\\b\"]" =
      Except.ok "A const rawData = [\"a\\b\"]; B" ∧
    ("A const rawData = [\"a\\b\"]; B" : String) ≠ "A const rawData = [\"a\\\\b\"]; B" ∧
    countRawData ("const rawData = [0];" : String).data = 1 ∧
    updateIndexHtml "const rawData = [0];" "[\"\\u000b\"]" = Except.error "bad escape" := by
  refine ⟨by decide, by decide, by decide, by decide, by decide⟩

/-- CLAIM C9 (amended): update_index_html raises exactly when the
replacement string built from the serialized dataset fails to compile as
a re.subn replacement template (an unknown ASCII-letter escape such as a
JSON unicode escape, a reference to a nonexistent group, an
out-of-range octal escape, or a trailing backslash) or when the number
of matches of the rawData delimiter pattern differs from one; when the
template compiles and exactly one match exists, the matched block is
replaced wholesale by the template expansion of the serialized dataset
(backslash escapes processed, group-zero references expanding to the
matched block) and nothing else in the file changes. -/
theorem update_index_html_amended (content dataJson : String) :
    ((∃ e, updateIndexHtml content dataJson = Except.error e) ↔
      ((∃ msg, parseTemplate ("const rawData = ".data ++ dataJson.data ++ ";".data) =
          Except.error msg) ∨ countRawData content.data ≠ 1)) ∧
    (∀ tmpl, parseTemplate ("const rawData = ".data ++ dataJson.data ++ ";".data) =
        Except.ok tmpl →
      countRawData content.data = 1 →
      ∃ pre mid post,
        content.data = pre ++ rawDataLit ++ mid ++ rawDataClose ++ post ∧
        updateIndexHtml content dataJson = Except.ok
          (String.mk (pre ++ expandRepl tmpl (rawDataLit ++ mid ++ rawDataClose) ++ post))) := by
  constructor
  · cases hpt : parseTemplate ("const rawData = ".data ++ dataJson.data ++ ";".data) with
    | error e =>
      constructor
      · intro _
        exact Or.inl ⟨e, rfl⟩
      · intro _
        exact ⟨e, updateIndexHtml_error_tmpl hpt⟩
    | ok tmpl =>
      have hcnt : (subnFilter (expandRepl tmpl) content.data).2 = countRawData content.data :=
        subnAux_count_filter (expandRepl tmpl) id content.data.length content.data
      constructor
      · intro hex
        right
        intro hc1
        obtain ⟨e, he⟩ := hex
        rw [updateIndexHtml_ok_tmpl hpt,
          if_neg (fun hcon => hcon (hcnt.trans hc1))] at he
        exact Except.noConfusion he
      · rintro (⟨msg, hmsg⟩ | hcne)
        · exact absurd hmsg (by simp)
        · exact ⟨"Unable to locate rawData block in index.html",
            by rw [updateIndexHtml_ok_tmpl hpt,
              if_pos (fun hcon => hcne (hcnt.symm.trans hcon))]⟩
  · intro tmpl hpt hc1
    have hsubn1 : (subnAux (expandRepl tmpl) content.data.length content.data).2 = 1 :=
      (subnAux_count_filter (expandRepl tmpl) id content.data.length content.data).trans hc1
    obtain ⟨pre, mid, post, hdec, hout⟩ :=
      subnAux_one_count (expandRepl tmpl) content.data.length content.data (le_refl _) hsubn1
    refine ⟨pre, mid, post, hdec, ?_⟩
    rw [updateIndexHtml_ok_tmpl hpt, if_neg (fun hcon => hcon hsubn1)]
    rw [show (subnFilter (expandRepl tmpl) content.data).1 =
      (subnAux (expandRepl tmpl) content.data.length content.data).1 from rfl, hout]

/-- Witness for update_index_html_amended: a content without the block
fails loudly, and a content with exactly one block and an escape-free
dataset is rewritten around the block with the dataset's own characters
as the template. -/
theorem update_index_html_amended_witness :
    (∃ e, updateIndexHtml "<p>A</p>" "[1]" = Except.error e) ∧
    (∃ pre mid post,
      ("<p>A const rawData = [0]; B</p>" : String).data =
        pre ++ rawDataLit ++ mid ++ rawDataClose ++ post ∧
      updateIndexHtml "<p>A const rawData = [0]; B</p>" "[1, 2]" = Except.ok
        (String.mk (pre ++ expandRepl ("const rawData = [1, 2];".data.map ReplPiece.lit)
          (rawDataLit ++ mid ++ rawDataClose) ++ post))) :=
  ⟨(update_index_html_amended "<p>A</p>" "[1]").1.mpr (Or.inr (by decide)),
   (update_index_html_amended "<p>A const rawData = [0]; B</p>" "[1, 2]").2
     ("const rawData = [1, 2];".data.map ReplPiece.lit) (by decide) (by decide)⟩
